import Mathlib

/-!
Verification of the rig container-session subsystem.

This file is a shallow embedding, in Lean 4, of the parts of the rig
repository that its specification's checked claims are about:

* the content-hash image tagging (`internal/project`: `ComputeHash`,
  `ImageRef`, `ContainerName`), including a faithful SHA-256 over `Nat`
  mirroring the FIPS 180-4 algorithm computed by the Go standard library
  call `sha256.Sum256` that `ComputeHash` wraps;
* port-specification parsing and validation (`internal/docker`:
  `parsePortMappings`; `internal/config`: `validatePortSpec`), over a
  model of Go `strings.Split` and `strconv.Atoi`;
* the Docker client seam (`internal/docker`: `FindContainer`,
  `CreateContainer`, `StartContainer`, `StopContainer`, `RemoveContainer`,
  `IsContainerRunning`, `GetContainerImage`, `BuildImage`,
  `streamBuildOutput`) as pure transition functions over an explicit
  runtime-world state, each call recorded in a trace;
* the session reconciliation flow (`cmd/session.go`: `runSession`, from
  the image-existence check through attachment), sequential over that
  world;
* the interactive attachment (`internal/docker`: `Attach`) as an explicit
  step sequence over an environment of oracles (terminal-ness of stdin,
  failure of each runtime call, which of the racing events at the final
  join point is ready, and the scheduler's pick when several are), with
  the Go `defer` stack translated into the explicit teardown events each
  return path records.

Machine integers are modelled as `Nat` with explicit reduction modulo
`2 ^ 32` where the source's `uint32` arithmetic wraps; Go byte slices are
`List Nat`; fallible Go calls return `Except String`.
-/

/-! ## SHA-256 over `Nat` (FIPS 180-4, as computed by Go `crypto/sha256`)

`internal/project.ComputeHash` calls `sha256.Sum256(data)` and hex-encodes
the 32-byte digest; the hashing itself lives in the Go standard library,
so it is embedded here directly from the published algorithm the library
implements. Words are `Nat` reduced modulo `2 ^ 32` at every operation
that can overflow. -/

def m32 : Nat := 2 ^ 32

/-- Rotate a 32-bit word right by `n`. -/
def rotr32 (n x : Nat) : Nat := ((x >>> n) ||| (x <<< (32 - n))) % m32

def bSig0 (x : Nat) : Nat := rotr32 2 x ^^^ rotr32 13 x ^^^ rotr32 22 x

def bSig1 (x : Nat) : Nat := rotr32 6 x ^^^ rotr32 11 x ^^^ rotr32 25 x

def sSig0 (x : Nat) : Nat := rotr32 7 x ^^^ rotr32 18 x ^^^ (x >>> 3)

def sSig1 (x : Nat) : Nat := rotr32 17 x ^^^ rotr32 19 x ^^^ (x >>> 10)

/-- Ch(x, y, z); the 32-bit complement of `x` is `x ^^^ (m32 - 1)`. -/
def chF (x y z : Nat) : Nat := (x &&& y) ^^^ ((x ^^^ (m32 - 1)) &&& z)

def majF (x y z : Nat) : Nat := (x &&& y) ^^^ (x &&& z) ^^^ (y &&& z)

/-- The 64 SHA-256 round constants. -/
def sha256K : List Nat :=
  [1116352408, 1899447441, 3049323471, 3921009573, 961987163,
   1508970993, 2453635748, 2870763221, 3624381080, 310598401,
   607225278, 1426881987, 1925078388, 2162078206, 2614888103,
   3248222580, 3835390401, 4022224774, 264347078, 604807628,
   770255983, 1249150122, 1555081692, 1996064986, 2554220882,
   2821834349, 2952996808, 3210313671, 3336571891, 3584528711,
   113926993, 338241895, 666307205, 773529912, 1294757372,
   1396182291, 1695183700, 1986661051, 2177026350, 2456956037,
   2730485921, 2820302411, 3259730800, 3345764771, 3516065817,
   3600352804, 4094571909, 275423344, 430227734, 506948616,
   659060556, 883997877, 958139571, 1322822218, 1537002063,
   1747873779, 1955562222, 2024104815, 2227730452, 2361852424,
   2428436474, 2756734187, 3204031479, 3329325298]

/-- The eight 32-bit working variables of the SHA-256 state. -/
structure H8 where
  a : Nat
  b : Nat
  c : Nat
  d : Nat
  e : Nat
  f : Nat
  g : Nat
  h : Nat
deriving DecidableEq

/-- The SHA-256 initial hash value. -/
def sha256H0 : H8 :=
  ⟨1779033703, 3144134277, 1013904242, 2773480762,
   1359893119, 2600822924, 528734635, 1541459225⟩

/-- Pad a byte message: append `0x80`, zeros to 56 mod 64, then the 8-byte
big-endian bit length. -/
def sha256Pad (msg : List Nat) : List Nat :=
  let L := msg.length
  let k := (64 + 56 - ((L + 1) % 64)) % 64
  let bitLen := 8 * L
  msg ++ [0x80] ++ List.replicate k 0 ++
    [bitLen >>> 56 % 256, bitLen >>> 48 % 256, bitLen >>> 40 % 256, bitLen >>> 32 % 256,
     bitLen >>> 24 % 256, bitLen >>> 16 % 256, bitLen >>> 8 % 256, bitLen % 256]

/-- Split a byte list into 64-byte blocks. The fuel argument (instantiated
with the list length) keeps the recursion structural so the kernel can
evaluate it. -/
def chunks64 (fuel : Nat) (l : List Nat) : List (List Nat) :=
  match fuel, l with
  | 0, _ => []
  | _, [] => []
  | f + 1, l => l.take 64 :: chunks64 f (l.drop 64)

/-- Big-endian 32-bit words from bytes. -/
def bytesToWords : List Nat → List Nat
  | a :: b :: c :: d :: rest => (((a * 256 + b) * 256 + c) * 256 + d) :: bytesToWords rest
  | _ => []

/-- Message-schedule extension; `acc` holds the words produced so far,
newest first, so W(t-2), W(t-7), W(t-15), W(t-16) sit at positions
1, 6, 14, 15. -/
def scheduleAux (fuel : Nat) (acc : List Nat) : List Nat :=
  match fuel with
  | 0 => acc
  | f + 1 =>
    let w := (sSig1 (acc.getD 1 0) + acc.getD 6 0 + sSig0 (acc.getD 14 0) + acc.getD 15 0) % m32
    scheduleAux f (w :: acc)

/-- The 64-word message schedule of one 64-byte block. -/
def schedule (block : List Nat) : List Nat :=
  (scheduleAux 48 (bytesToWords block).reverse).reverse

/-- One SHA-256 round, consuming a (round constant, schedule word) pair. -/
def round1 (st : H8) (kw : Nat × Nat) : H8 :=
  let t1 := (st.h + bSig1 st.e + chF st.e st.f st.g + kw.1 + kw.2) % m32
  let t2 := (bSig0 st.a + majF st.a st.b st.c) % m32
  ⟨(t1 + t2) % m32, st.a, st.b, st.c, (st.d + t1) % m32, st.e, st.f, st.g⟩

/-- The SHA-256 compression function on one 64-byte block. -/
def compress (h0 : H8) (block : List Nat) : H8 :=
  let st := (List.zip sha256K (schedule block)).foldl round1 h0
  ⟨(st.a + h0.a) % m32, (st.b + h0.b) % m32, (st.c + h0.c) % m32, (st.d + h0.d) % m32,
   (st.e + h0.e) % m32, (st.f + h0.f) % m32, (st.g + h0.g) % m32, (st.h + h0.h) % m32⟩

/-- The four big-endian bytes of a 32-bit word. -/
def wordBytes (w : Nat) : List Nat := [w >>> 24 % 256, w >>> 16 % 256, w >>> 8 % 256, w % 256]

/-- The 32 digest bytes of the SHA-256 of a byte message (Go
`sha256.Sum256`). -/
def sha256Bytes (msg : List Nat) : List Nat :=
  let padded := sha256Pad msg
  let st := (chunks64 padded.length padded).foldl compress sha256H0
  wordBytes st.a ++ wordBytes st.b ++ wordBytes st.c ++ wordBytes st.d ++
  wordBytes st.e ++ wordBytes st.f ++ wordBytes st.g ++ wordBytes st.h

/-! ## internal/project: content-hash image tagging -/

/-- Lowercase hex digit character of a value below 16 (Go
`encoding/hex` alphabet 0-9a-f). -/
def hexChar (n : Nat) : Char :=
  if n < 10 then Char.ofNat (48 + n) else Char.ofNat (87 + n)

/-- HashLength from `internal/project`: the number of hex characters kept
from the SHA256 hash for image tags. -/
def HashLength : Nat := 12

/-- The first `HashLength` hex-digit values of the SHA-256 digest of
`data`: `ComputeHash` before rendering the digits as characters. -/
def tagDigits (data : List Nat) : List Nat :=
  ((sha256Bytes data).flatMap (fun b => [b / 16 % 16, b % 16])).take HashLength

/-- ComputeHash from `internal/project`: hex-encode the SHA-256 digest of
`data` and keep the first `HashLength` characters. -/
def ComputeHash (data : List Nat) : String :=
  String.mk ((tagDigits data).map hexChar)

/-- ImageRef from `internal/project`: `devbox-<project>:<hash>`. -/
def ImageRef (projectName configHash : String) : String :=
  "devbox-" ++ projectName ++ ":" ++ configHash

/-- ContainerName from `internal/project`: `devbox-<project>`. -/
def ContainerName (projectName : String) : String :=
  "devbox-" ++ projectName

/-- The byte values of a string's characters (all inputs of interest are
ASCII, where Go UTF-8 bytes and character codes agree). -/
def strBytes (s : String) : List Nat := s.data.map Char.toNat

/-- Little-endian base-16 value of a digit list (proof scaffolding: it
injects the finitely many possible tag digit lists into a finite type
for the collision argument). -/
def valLE : List Nat → Nat
  | [] => 0
  | d :: ds => d + 16 * valLE ds

/-! ## Go `strings.Split` on ":" and `strconv.Atoi`, over character lists -/

/-- Accumulator pass of splitting on the colon character. -/
def splitColonAux : List Char → List Char → List (List Char)
  | [], acc => [acc.reverse]
  | c :: rest, acc =>
    if c = ':' then acc.reverse :: splitColonAux rest [] else splitColonAux rest (c :: acc)

/-- Go `strings.Split(s, ":")`: the colon-separated parts of `s`, as
character lists (one part more than there are colons). -/
def splitColon (s : List Char) : List (List Char) := splitColonAux s []

/-- The value of a decimal digit character, if it is one. -/
def digitVal (c : Char) : Option Nat :=
  if 48 ≤ c.toNat ∧ c.toNat ≤ 57 then some (c.toNat - 48) else none

/-- The unsigned-decimal reading of a character list: `none` on a
non-digit, otherwise the accumulated value. -/
def decDigits : List Char → Nat → Option Nat
  | [], acc => some acc
  | c :: rest, acc =>
    match digitVal c with
    | none => none
    | some d => decDigits rest (acc * 10 + d)

/-- Go `strconv.Atoi` on a 64-bit platform: optional sign, at least one
digit, nothing else, and the value must fit a signed 64-bit integer. -/
def atoi (s : List Char) : Option Int :=
  match s with
  | [] => none
  | '+' :: rest =>
    if rest = [] then none else
      (decDigits rest 0).bind fun n => if n ≤ 2 ^ 63 - 1 then some (Int.ofNat n) else none
  | '-' :: rest =>
    if rest = [] then none else
      (decDigits rest 0).bind fun n => if n ≤ 2 ^ 63 then some (-(Int.ofNat n)) else none
  | s =>
    (decDigits s 0).bind fun n => if n ≤ 2 ^ 63 - 1 then some (Int.ofNat n) else none

/-! ## internal/config: validatePortSpec -/

/-- validatePortSpec from `internal/config`: a spec is one number, or two
numbers separated by one colon; any other colon count is an error. -/
def validatePortSpec (spec : String) : Except String Unit :=
  match splitColon spec.data with
  | [p] =>
    match atoi p with
    | none => .error ("invalid port number: " ++ String.mk p)
    | some _ => .ok ()
  | [h, c] =>
    match atoi h with
    | none => .error ("invalid host port: " ++ String.mk h)
    | some _ =>
      match atoi c with
      | none => .error ("invalid container port: " ++ String.mk c)
      | some _ => .ok ()
  | _ => .error "invalid format, expected port or host:container"

/-! ## internal/docker: parsePortMappings -/

/-- One Docker host binding, as in `nat.PortBinding`. -/
structure PortBinding where
  hostIP : String
  hostPort : String
deriving DecidableEq

/-- Insert a key into a set kept as a duplicate-free list (Go
`nat.PortSet` map insertion). -/
def setInsert (l : List String) (k : String) : List String :=
  if k ∈ l then l else l ++ [k]

/-- Replace-or-append insertion into an association list (Go `nat.PortMap`
map assignment). -/
def mapInsert (l : List (String × List PortBinding)) (k : String) (v : List PortBinding) :
    List (String × List PortBinding) :=
  if l.any (fun p => p.1 = k) then
    l.map (fun p => if p.1 = k then (k, v) else p)
  else l ++ [(k, v)]

/-- The loop body of `parsePortMappings`: the Go `switch len(parts)`
assigns host and container port strings (one part serves as both on a
bare port), the shared tail validates both as numbers and inserts the
`<container>/tcp` key. -/
def parsePortsGo (specs : List String) (exposed : List String)
    (bindings : List (String × List PortBinding)) :
    Except String (List String × List (String × List PortBinding)) :=
  match specs with
  | [] => .ok (exposed, bindings)
  | spec :: rest =>
    let split :=
      match splitColon spec.data with
      | [p] => some (p, p)
      | [h, c] => some (h, c)
      | _ => none
    match split with
    | none => .error ("invalid port spec: " ++ spec)
    | some (hostPort, containerPort) =>
      match atoi hostPort with
      | none => .error ("invalid host port: " ++ String.mk hostPort)
      | some _ =>
        match atoi containerPort with
        | none => .error ("invalid container port: " ++ String.mk containerPort)
        | some _ =>
          let natPort := String.mk containerPort ++ "/tcp"
          parsePortsGo rest (setInsert exposed natPort)
            (mapInsert bindings natPort [{hostIP := "0.0.0.0", hostPort := String.mk hostPort}])

/-- parsePortMappings from `internal/docker`: convert port specs to the
exposed-port set and the port-binding map, failing on a spec with more
than one colon or a non-numeric port. -/
def parsePortMappings (ports : List String) :
    Except String (List String × List (String × List PortBinding)) :=
  parsePortsGo ports [] []


/-! ## internal/docker: the runtime world and the client calls

The Docker daemon's observable state is a list of image references and a
list of containers; each client method of `internal/docker` becomes a
pure function of this world. Failure modes a claim exercises (a failing
container listing, a failing create or start, the build progress stream's
content, the attach outcome) are oracles carried in the world. -/

/-- One container as the runtime knows it: Docker API names carry a
leading slash. -/
structure ContainerRec where
  id : String
  names : List String
  image : String
  running : Bool
deriving DecidableEq

/-- One message of the Docker build progress stream, as decoded by
`streamBuildOutput` (Go `buildMessage`: a stream fragment or an error). -/
structure BuildMsg where
  stream : String
  errMsg : String
deriving DecidableEq

/-- The runtime world: daemon state plus the failure oracles the claims
exercise. `nextId` is the id the daemon assigns to the next created
container. -/
structure World where
  images : List String
  containers : List ContainerRec
  listFails : Bool
  buildMsgs : List BuildMsg
  createFails : Bool
  startFails : Bool
  attachFails : Bool
  nextId : String
deriving DecidableEq

/-- One call issued to the Docker client, as recorded in a trace. -/
inductive DCall
  | imageExists (ref : String)
  | build (ref : String)
  | findContainer (name : String)
  | getImage (id : String)
  | remove (id : String) (force : Bool)
  | create (name : String) (ref : String)
  | isRunning (id : String)
  | start (id : String)
  | stop (id : String)
  | attach (id : String)
deriving DecidableEq

/-- The mutating runtime calls: build, create, remove, start, stop. -/
def DCall.isMutating : DCall → Bool
  | .build _ => true
  | .create _ _ => true
  | .remove _ _ => true
  | .start _ => true
  | .stop _ => true
  | _ => false

/-- ImageExists from `internal/docker`: whether the reference is among
the locally stored images. -/
def imageExists (w : World) (ref : String) : Bool :=
  w.images.contains ref

/-- streamBuildOutput from `internal/docker`: scan the decoded build
messages; the first one carrying an error aborts, end of stream is
success. -/
def streamBuildOutput : List BuildMsg → Except String Unit
  | [] => .ok ()
  | m :: rest =>
    if m.errMsg ≠ "" then .error ("build error: " ++ m.errMsg)
    else streamBuildOutput rest

/-- BuildImage from `internal/docker`: stream the build output; only a
build that streamed no error leaves the reference tagged. -/
def buildImage (w : World) (ref : String) : Except String World :=
  match streamBuildOutput w.buildMsgs with
  | .error e => .error ("streaming build output: " ++ e)
  | .ok _ => .ok {w with images := w.images ++ [ref]}

/-- FindContainer from `internal/docker`: list all containers (an error
if listing fails), then return the id of the first one whose name list
contains the slash-prefixed name, or the empty string. -/
def findContainer (w : World) (name : String) : Except String String :=
  if w.listFails then .error "listing containers" else
    match w.containers.find? (fun c => ("/" ++ name) ∈ c.names) with
    | some c => .ok c.id
    | none => .ok ""

/-- GetContainerImage from `internal/docker`: the bound image of the
container with the given id (inspect fails when there is none). -/
def getContainerImage (w : World) (id : String) : Except String String :=
  match w.containers.find? (fun c => c.id = id) with
  | some c => .ok c.image
  | none => .error "inspecting container"

/-- IsContainerRunning from `internal/docker`: the running flag of the
container with the given id. -/
def isContainerRunning (w : World) (id : String) : Except String Bool :=
  match w.containers.find? (fun c => c.id = id) with
  | some c => .ok c.running
  | none => .error "inspecting container"

/-- RemoveContainer from `internal/docker`: drop the container; without
force the daemon refuses to remove a running one. -/
def removeContainer (w : World) (id : String) (force : Bool) : Except String World :=
  match w.containers.find? (fun c => c.id = id) with
  | none => .error "removing container"
  | some c =>
    if c.running ∧ ¬force then .error "removing container"
    else .ok {w with containers := w.containers.filter (fun c => c.id ≠ id)}

/-- StopContainer from `internal/docker`: clear the running flag. -/
def stopContainer (w : World) (id : String) : Except String World :=
  match w.containers.find? (fun c => c.id = id) with
  | none => .error "stopping container"
  | some _ =>
    .ok {w with containers :=
      w.containers.map (fun c => if c.id = id then {c with running := false} else c)}

/-- StartContainer from `internal/docker`: set the running flag (an
error when the start oracle fails or the container is unknown). -/
def startContainer (w : World) (id : String) : Except String World :=
  if w.startFails then .error "starting container" else
    match w.containers.find? (fun c => c.id = id) with
    | none => .error "starting container"
    | some _ =>
      .ok {w with containers :=
        w.containers.map (fun c => if c.id = id then {c with running := true} else c)}

/-- ContainerConfig from `internal/docker`: the creation options
`runSession` passes. -/
structure ContainerConfig where
  imageRef : String
  containerName : String
  workDir : String
  ports : List String
  env : List (String × String)
  command : List String

/-- CreateContainer from `internal/docker`: parse the port mappings
(failing on an invalid spec), then create the container — named with the
slash prefix under which the daemon reports it, bound to the requested
image, not yet running. -/
def createContainer (w : World) (cfg : ContainerConfig) : Except String (String × World) :=
  match parsePortMappings cfg.ports with
  | .error e => .error ("parsing ports: " ++ e)
  | .ok _ =>
    if w.createFails then .error "creating container"
    else
      .ok (w.nextId,
        {w with containers := w.containers ++
          [{id := w.nextId, names := ["/" ++ cfg.containerName], image := cfg.imageRef,
            running := false}]})

/-! ## cmd/session.go: runSession

The flow from the image-existence check to attachment, with the
configuration loading and hashing that precede it abstracted into the
already-computed `imageRef`, `containerName`, ports, environment and
command inputs (config.Load, Validate, ExpandEnvVars, GetProjectName,
ComputeConfigHash, ImageRef and ContainerName run before the first
runtime call). Each linear block of the Go function becomes one stage
function that threads the world and the call trace to the next block,
mirroring the source's early-return control flow. The returned value is
the container id the attachment used, so the reconciliation outcome is
visible to the theorems; the Go function returns only the error. -/

def sessionAttachStage (cid : String) (w : World) (tr : List DCall) :
    Except String String × List DCall :=
  let tr9 := tr ++ [DCall.attach cid]
  if w.attachFails then (.error "attaching to container", tr9)
  else (.ok cid, tr9)

def sessionStartStage (cid : String) (w : World) (tr : List DCall) :
    Except String String × List DCall :=
  let tr7 := tr ++ [DCall.isRunning cid]
  match isContainerRunning w cid with
  | .error e => (.error ("checking container status: " ++ e), tr7)
  | .ok running =>
    if ¬running then
      match startContainer w cid with
      | .error e => (.error ("starting container: " ++ e), tr7 ++ [DCall.start cid])
      | .ok w4 => sessionAttachStage cid w4 (tr7 ++ [DCall.start cid])
    else sessionAttachStage cid w tr7

def sessionCreateStage (imageRef containerName : String) (ports : List String)
    (env : List (String × String)) (command : List String) (workDir : String)
    (cid1 : String) (w2 : World) (tr : List DCall) :
    Except String String × List DCall :=
  if cid1 = "" then
    let tr5 := tr ++ [DCall.create containerName imageRef]
    match createContainer w2
        {imageRef := imageRef, containerName := containerName, workDir := workDir,
         ports := ports, env := env, command := command} with
    | .error e => (.error ("creating container: " ++ e), tr5)
    | .ok (newId, w3) => sessionStartStage newId w3 tr5
  else sessionStartStage cid1 w2 tr

def sessionImageCheckStage (imageRef containerName : String) (ports : List String)
    (env : List (String × String)) (command : List String) (workDir : String)
    (cid0 : String) (w1 : World) (tr : List DCall) :
    Except String String × List DCall :=
  if cid0 ≠ "" then
    let tr3 := tr ++ [DCall.getImage cid0]
    match getContainerImage w1 cid0 with
    | .error e => (.error ("getting container image: " ++ e), tr3)
    | .ok currentImage =>
      if currentImage ≠ imageRef then
        match removeContainer w1 cid0 true with
        | .error e =>
          (.error ("removing old container: " ++ e), tr3 ++ [DCall.remove cid0 true])
        | .ok w2 =>
          sessionCreateStage imageRef containerName ports env command workDir ""
            w2 (tr3 ++ [DCall.remove cid0 true])
      else
        sessionCreateStage imageRef containerName ports env command workDir cid0 w1 tr3
  else sessionCreateStage imageRef containerName ports env command workDir cid0 w1 tr

def sessionFindStage (imageRef containerName : String) (ports : List String)
    (env : List (String × String)) (command : List String) (workDir : String)
    (w1 : World) (tr : List DCall) : Except String String × List DCall :=
  let tr2 := tr ++ [DCall.findContainer containerName]
  match findContainer w1 containerName with
  | .error e => (.error ("finding container: " ++ e), tr2)
  | .ok cid0 =>
    sessionImageCheckStage imageRef containerName ports env command workDir cid0 w1 tr2

def runSession (imageRef containerName : String) (ports : List String)
    (env : List (String × String)) (command : List String) (workDir : String)
    (w0 : World) : Except String String × List DCall :=
  let tr0 := [DCall.imageExists imageRef]
  if imageExists w0 imageRef then
    sessionFindStage imageRef containerName ports env command workDir w0 tr0
  else
    match buildImage w0 imageRef with
    | .error e => (.error ("building image: " ++ e), tr0 ++ [DCall.build imageRef])
    | .ok w1 =>
      sessionFindStage imageRef containerName ports env command workDir w1
        (tr0 ++ [DCall.build imageRef])

/-! ## internal/docker: Attach

The interactive attachment of `internal/docker` (`Attach`), as the
explicit sequence of steps the Go function performs. The oracles of
`AttachEnv` decide each fallible step, which of the two racing events
(a copy task's result on the shared channel, the caller's cancellation)
is ready at the final join point, and — when both are ready at once —
which branch the Go `select` statement's pseudo-random choice commits.
The three `defer`s (restore the terminal, close the attachment stream,
stop the signal subscription) are translated by appending, on every
return path, exactly the teardown events Go's LIFO defer stack would
run there. A `none` result models the call blocking forever at the
join point (no event ever ready): the function has not returned, so no
deferred teardown has run. -/

/-- The value a finished copy task puts on the shared error channel:
a nil error (the source reached end-of-stream), the `io.EOF` sentinel,
or a real I/O failure. -/
inductive CopyOutcome
  | clean
  | eofSentinel
  | ioFail (msg : String)
deriving DecidableEq

/-- The branch the `select` join point commits. -/
inductive SelEvent
  | copyDone (o : CopyOutcome)
  | ctxDone
deriving DecidableEq

/-- The oracles of one attachment run. `copyReady` is the copy-task
result available on the shared channel at the join point (if any),
`cancelReady` whether the cancellation signal has fired there, and
`pick` the scheduler's choice when both are ready (`true` commits the
cancellation branch). -/
structure AttachEnv where
  execCreateFails : Bool
  stdinIsTerminal : Bool
  setRawFails : Bool
  attachFails : Bool
  copyReady : Option CopyOutcome
  cancelReady : Bool
  pick : Bool
deriving DecidableEq

/-- The steps of an attachment run, as recorded in its trace. -/
inductive AEvent
  | execCreate
  | setRaw
  | restore
  | attachOpen
  | closeStream
  | initialResize
  | sigSubscribe
  | sigStop
  | drain
deriving DecidableEq

/-- The event the `select` join point commits: the ready event when only
one is ready, the scheduler's pick when both are, `none` (the select
blocks) when neither. -/
def commit (e : AttachEnv) : Option SelEvent :=
  match e.copyReady, e.cancelReady with
  | none, false => none
  | some o, false => some (.copyDone o)
  | none, true => some .ctxDone
  | some o, true => some (if e.pick then .ctxDone else .copyDone o)

/-- Attach from `internal/docker`: create the exec instance, check that
stdin is a terminal, enter raw mode, open the attachment stream,
propagate the initial size, subscribe to resize signals, start the two
copy tasks, and join on the first of a copy result or cancellation.
Returns the result (`none` when the join point never fires) and the
trace of steps performed. -/
def Attach (e : AttachEnv) : Option (Except String Unit) × List AEvent :=
  let tr0 := [AEvent.execCreate]
  if e.execCreateFails then (some (.error "creating exec"), tr0)
  else if ¬e.stdinIsTerminal then (some (.error "stdin is not a terminal"), tr0)
  else if e.setRawFails then (some (.error "setting raw terminal"), tr0)
  else
    let tr1 := tr0 ++ [AEvent.setRaw]
    if e.attachFails then (some (.error "attaching to exec"), tr1 ++ [AEvent.restore])
    else
      let tr2 := tr1 ++ [AEvent.attachOpen, AEvent.initialResize, AEvent.sigSubscribe]
      match commit e with
      | none => (none, tr2)
      | some .ctxDone =>
        (some (.error "context canceled"),
         tr2 ++ [AEvent.sigStop, AEvent.closeStream, AEvent.restore])
      | some (.copyDone (.ioFail msg)) =>
        (some (.error ("I/O error: " ++ msg)),
         tr2 ++ [AEvent.sigStop, AEvent.closeStream, AEvent.restore])
      | some (.copyDone _) =>
        (some (.ok ()),
         tr2 ++ [AEvent.drain, AEvent.sigStop, AEvent.closeStream, AEvent.restore])

/-! ## Structural facts about the truncated content hash

The tag is the 12-character truncation of a 64-character hex digest:
its digit list always has length 12 with every digit below 16, so the
whole tag space is finite — which is what the collision argument for C3
needs. -/

theorem sha256Bytes_length (msg : List Nat) : (sha256Bytes msg).length = 32 := by
  simp [sha256Bytes, wordBytes]

theorem flatMap_pair_length (l : List Nat) (f g : Nat → Nat) :
    (l.flatMap (fun b => [f b, g b])).length = 2 * l.length := by
  induction l with
  | nil => simp
  | cons x xs ih => simp [ih]; omega

theorem tagDigits_length (data : List Nat) : (tagDigits data).length = 12 := by
  have h1 := flatMap_pair_length (sha256Bytes data) (fun b => b / 16 % 16) (fun b => b % 16)
  rw [sha256Bytes_length] at h1
  simp [tagDigits, HashLength, h1]

theorem tagDigits_lt (data : List Nat) : ∀ d ∈ tagDigits data, d < 16 := by
  intro d hd
  have hmem := List.take_subset HashLength _ hd
  obtain ⟨b, _, hb⟩ := List.mem_flatMap.mp hmem
  simp only [List.mem_cons, List.not_mem_nil, or_false] at hb
  rcases hb with rfl | rfl <;> omega

theorem valLE_lt : ∀ ds : List Nat, (∀ d ∈ ds, d < 16) → valLE ds < 16 ^ ds.length := by
  intro ds
  induction ds with
  | nil => intro _; simp [valLE]
  | cons d ds ih =>
    intro h
    have hd : d < 16 := h d (by simp)
    have hv : valLE ds < 16 ^ ds.length := ih (fun x hx => h x (by simp [hx]))
    simp only [valLE, List.length_cons, pow_succ]
    calc d + 16 * valLE ds < 16 + 16 * valLE ds := by omega
    _ ≤ 16 * (valLE ds + 1) := by ring_nf; omega
    _ ≤ 16 * 16 ^ ds.length := by
        have : valLE ds + 1 ≤ 16 ^ ds.length := hv
        omega
    _ = 16 ^ ds.length * 16 := by ring

theorem valLE_inj : ∀ d1 d2 : List Nat, d1.length = d2.length →
    (∀ x ∈ d1, x < 16) → (∀ x ∈ d2, x < 16) → valLE d1 = valLE d2 → d1 = d2 := by
  intro d1
  induction d1 with
  | nil => intro d2 hlen _ _ _; cases d2 with
    | nil => rfl
    | cons _ _ => simp at hlen
  | cons a as ih =>
    intro d2 hlen h1 h2 hval
    cases d2 with
    | nil => simp at hlen
    | cons b bs =>
      have ha : a < 16 := h1 a (by simp)
      have hb : b < 16 := h2 b (by simp)
      simp only [valLE] at hval
      have hab : a = b := by omega
      have hv : valLE as = valLE bs := by omega
      have := ih bs (by simpa using hlen) (fun x hx => h1 x (by simp [hx]))
        (fun x hx => h2 x (by simp [hx])) hv
      rw [hab, this]

/-! ## Claim C3: the truncated content hash -/

/-- C3 counterexample: the universal injectivity half of the claim is
false — the tag keeps only 12 hex characters (48 bits), so by the
pigeonhole principle over the infinitely many configuration byte
sequences two distinct ones must share a tag; the claim "for every pair
with C1 ≠ C2 the computed image tags differ" cannot hold. -/
theorem computeHash_not_injective :
    ¬ ∀ c1 c2 : List Nat, c1 ≠ c2 → ComputeHash c1 ≠ ComputeHash c2 := by
  intro hinj
  have hbound : ∀ n : ℕ, valLE (tagDigits (List.replicate n 0)) < 16 ^ 12 := by
    intro n
    have h := valLE_lt (tagDigits (List.replicate n 0)) (tagDigits_lt _)
    rwa [tagDigits_length] at h
  obtain ⟨a, b, hne, heq⟩ :=
    Finite.exists_ne_map_eq_of_infinite
      (fun n : ℕ => (⟨valLE (tagDigits (List.replicate n 0)), hbound n⟩ : Fin (16 ^ 12)))
  simp only [Fin.mk.injEq] at heq
  have hd : tagDigits (List.replicate a 0) = tagDigits (List.replicate b 0) :=
    valLE_inj _ _ (by rw [tagDigits_length, tagDigits_length]) (tagDigits_lt _)
      (tagDigits_lt _) heq
  have hch : ComputeHash (List.replicate a 0) = ComputeHash (List.replicate b 0) := by
    unfold ComputeHash
    rw [hd]
  have hrep : (List.replicate a 0 : List Nat) ≠ List.replicate b 0 := by
    intro h
    exact hne (by simpa using congrArg List.length h)
  exact hinj _ _ hrep hch

/-- C3 (amended): the hash is a deterministic function of the
configuration bytes; the bytes of "test content" yield the fixed tag
"6ae8a7555520" and the empty byte sequence the fixed tag "e3b0c44298fc",
which differ; but distinct byte sequences are not guaranteed distinct
tags (the tag is a 48-bit truncation — see the counterexample). -/
theorem computeHash_deterministic_fixed_values :
    (∀ c1 c2 : List Nat, c1 = c2 → ComputeHash c1 = ComputeHash c2) ∧
    ComputeHash (strBytes "test content") = "6ae8a7555520" ∧
    ComputeHash [] = "e3b0c44298fc" ∧
    ComputeHash (strBytes "test content") ≠ ComputeHash [] := by
  refine ⟨fun c1 c2 h => by rw [h], by decide, by decide, by decide⟩

/-! ## Claim C7: port specification forms -/

theorem splitColonAux_length : ∀ (s : List Char) (acc : List Char),
    (splitColonAux s acc).length = s.count ':' + 1 := by
  intro s
  induction s with
  | nil => intro acc; simp [splitColonAux]
  | cons c rest ih =>
    intro acc
    by_cases h : c = ':'
    · subst h
      simp [splitColonAux, ih, List.count_cons]
    · simp [splitColonAux, h, ih, List.count_cons, Ne.symm h]

/-- C7: a bare port maps the same host and container port (3000 to
3000), a host:container pair maps 8080 to 9090, and a spec with more
than one colon is rejected — by `parsePortMappings` on the concrete
specs, and by `validatePortSpec` on every spec with two or more
colons. -/
theorem portMapping_forms :
    parsePortMappings ["3000"] =
      .ok (["3000/tcp"], [("3000/tcp", [{hostIP := "0.0.0.0", hostPort := "3000"}])]) ∧
    parsePortMappings ["8080:9090"] =
      .ok (["9090/tcp"], [("9090/tcp", [{hostIP := "0.0.0.0", hostPort := "8080"}])]) ∧
    parsePortMappings ["8080:9090:1"] = .error "invalid port spec: 8080:9090:1" ∧
    validatePortSpec "8080:9090:1" =
      .error "invalid format, expected port or host:container" ∧
    (∀ spec : String, 2 ≤ spec.data.count ':' →
      validatePortSpec spec = .error "invalid format, expected port or host:container") := by
  refine ⟨rfl, rfl, rfl, rfl, ?_⟩
  intro spec hcount
  have hlen : 3 ≤ (splitColon spec.data).length := by
    have := splitColonAux_length spec.data []
    unfold splitColon
    omega
  unfold validatePortSpec
  rcases hsp : splitColon spec.data with _ | ⟨a, _ | ⟨b, _ | ⟨c, t⟩⟩⟩
  · simp [hsp] at hlen
  · simp [hsp] at hlen
  · simp [hsp] at hlen
  · rfl

/-! ## Claim C10: FindContainer on a missing name -/

/-- C10: when no container carries the slash-prefixed name,
FindContainer returns the empty string with no error; an error can only
come from the container listing itself failing. -/
theorem findContainer_no_match :
    (∀ (w : World) (name : String), w.listFails = false →
      (∀ c ∈ w.containers, ("/" ++ name) ∉ c.names) →
      findContainer w name = .ok "") ∧
    (∀ (w : World) (name : String) (e : String),
      findContainer w name = .error e → w.listFails = true) := by
  constructor
  · intro w name hl hnone
    unfold findContainer
    rw [if_neg (by simp [hl])]
    have hfind : w.containers.find? (fun c => decide (("/" ++ name) ∈ c.names)) = none := by
      rw [List.find?_eq_none]
      intro c hc
      simpa using hnone c hc
    rw [hfind]
  · intro w name e h
    unfold findContainer at h
    cases hl : w.listFails
    · rw [if_neg (by simp [hl])] at h
      cases hfind : w.containers.find? (fun c => decide (("/" ++ name) ∈ c.names)) <;>
        rw [hfind] at h <;> cases h
    · rfl

/-! ## Claim C1: attach on a non-terminal stdin -/

/-- C1 counterexample: with stdin not a terminal (and the exec creation
succeeding), `Attach` does return the not-a-terminal error — but the
exec-create call has already been issued inside the container before
the check, so "performs no execution-instance creation" is false. -/
theorem attach_nonterminal_still_creates_exec :
    (Attach ⟨false, false, false, false, none, false, false⟩).1 =
      some (.error "stdin is not a terminal") ∧
    AEvent.execCreate ∈ (Attach ⟨false, false, false, false, none, false, false⟩).2 := by
  exact ⟨rfl, by decide⟩

/-- C1 (amended): on a non-terminal stdin, `Attach` fails with the
not-a-terminal error before entering raw mode, attaching, or copying —
but only after issuing exactly one exec-create call inside the
container (the terminal check follows the exec creation in the code). -/
theorem attach_nonterminal_fails_after_execCreate (e : AttachEnv)
    (htty : e.stdinIsTerminal = false) (hec : e.execCreateFails = false) :
    Attach e = (some (.error "stdin is not a terminal"), [AEvent.execCreate]) := by
  unfold Attach
  rw [hec, htty]
  rfl

theorem attach_nonterminal_fails_after_execCreate_witness :
    Attach ⟨false, false, false, false, none, false, false⟩ =
      (some (.error "stdin is not a terminal"), [AEvent.execCreate]) :=
  attach_nonterminal_fails_after_execCreate ⟨false, false, false, false, none, false, false⟩
    rfl rfl

/-! ## Claim C6: raw-mode restoration -/

/-- C6: once the terminal has been put into raw mode, every run of
`Attach` that returns — with success, an error, or cancellation —
restores the prior terminal mode exactly once (the Go `defer` registered
right after entering raw mode). A run that never returns (no event ever
reaches the join point) has not exited, so the claim does not bear on
it. -/
theorem attach_restores_terminal_once (e : AttachEnv)
    (hraw : AEvent.setRaw ∈ (Attach e).2) (hret : (Attach e).1 ≠ none) :
    (Attach e).2.count AEvent.restore = 1 := by
  rcases e with ⟨ec, tty, sr, af, cp, cr, pk⟩
  rcases cp with _ | o
  · cases ec <;> cases tty <;> cases sr <;> cases af <;> cases cr <;> cases pk <;>
      simp_all [Attach, commit]
  · cases o <;> cases ec <;> cases tty <;> cases sr <;> cases af <;> cases cr <;> cases pk <;>
      simp_all [Attach, commit]

theorem attach_restores_terminal_once_witness :
    (Attach ⟨false, true, false, false, some CopyOutcome.clean, false, false⟩).2.count
      AEvent.restore = 1 :=
  attach_restores_terminal_once ⟨false, true, false, false, some CopyOutcome.clean, false, false⟩
    (by simp [Attach, commit]) (by simp [Attach, commit])

/-! ## Claim C8: the join point of the attachment session -/

/-- C8 counterexample: with the cancellation signal fired alongside a
clean end-of-stream, the Go select's pseudo-random choice may commit the
copy branch, and the session then returns success, not the cancellation
error — the claimed deterministic tie-break in favour of cancellation
does not hold. -/
theorem attach_tie_can_return_ok :
    (⟨false, true, false, false, some CopyOutcome.clean, true, false⟩ : AttachEnv).cancelReady
      = true ∧
    (Attach ⟨false, true, false, false, some CopyOutcome.clean, true, false⟩).1 =
      some (.ok ()) :=
  ⟨rfl, rfl⟩

/-- C8 (amended): the session ends at the first event reaching the join
point — a copy task's result or the cancellation signal; when both are
ready at once the scheduler's pick decides the branch. The committed
branch alone determines the returned error (cancellation gives the
cancellation error, a clean or EOF copy result gives success, another
copy error gives the I/O error), and the losing outcome is discarded:
the cancellation branch returns without draining the copy channel, and
the copy branch only polls it without blocking. -/
theorem attach_join_committed_branch_decides (e : AttachEnv)
    (htty : e.stdinIsTerminal = true) (hec : e.execCreateFails = false)
    (hsr : e.setRawFails = false) (haf : e.attachFails = false) :
    (commit e = none → (Attach e).1 = none) ∧
    (commit e = some .ctxDone →
      (Attach e).1 = some (.error "context canceled") ∧ AEvent.drain ∉ (Attach e).2) ∧
    (∀ o, o = CopyOutcome.clean ∨ o = CopyOutcome.eofSentinel →
      commit e = some (.copyDone o) → (Attach e).1 = some (.ok ())) ∧
    (∀ m, commit e = some (.copyDone (.ioFail m)) →
      (Attach e).1 = some (.error ("I/O error: " ++ m))) := by
  rcases e with ⟨ec, tty, sr, af, cp, cr, pk⟩
  simp only at htty hec hsr haf
  subst htty hec hsr haf
  rcases cp with _ | o
  · cases cr <;> cases pk <;> simp [Attach, commit]
  · cases o <;> cases cr <;> cases pk <;>
      simp_all [Attach, commit]

theorem attach_join_committed_branch_decides_witness :
    (Attach ⟨false, true, false, false, none, true, false⟩).1 =
      some (.error "context canceled") :=
  ((attach_join_committed_branch_decides ⟨false, true, false, false, none, true, false⟩
    rfl rfl rfl rfl).2.1 rfl).1

/-! ## Characterizations of the successful client calls -/

theorem buildImage_ok_eq {w : World} {r : String} {w1 : World}
    (h : buildImage w r = .ok w1) : w1 = {w with images := w.images ++ [r]} := by
  unfold buildImage at h
  cases hs : streamBuildOutput w.buildMsgs with
  | error e => rw [hs] at h; cases h
  | ok u => rw [hs] at h; simp only [Except.ok.injEq] at h; exact h.symm

theorem removeContainer_ok_eq {w : World} {id : String} {force : Bool} {w2 : World}
    (h : removeContainer w id force = .ok w2) :
    w2 = {w with containers := w.containers.filter (fun c => c.id ≠ id)} := by
  unfold removeContainer at h
  cases hf : w.containers.find? (fun c => c.id = id) with
  | none => rw [hf] at h; cases h
  | some c =>
    rw [hf] at h
    dsimp only at h
    by_cases hc : c.running = true ∧ ¬force = true
    · rw [if_pos hc] at h; cases h
    · rw [if_neg hc] at h; simp only [Except.ok.injEq] at h; exact h.symm

theorem createContainer_ok_eq {w : World} {cfg : ContainerConfig} {nid : String} {w3 : World}
    (h : createContainer w cfg = .ok (nid, w3)) :
    w.createFails = false ∧ nid = w.nextId ∧
      w3 = {w with containers := w.containers ++
        [{id := w.nextId, names := ["/" ++ cfg.containerName], image := cfg.imageRef,
          running := false}]} := by
  unfold createContainer at h
  cases hp : parsePortMappings cfg.ports with
  | error e => rw [hp] at h; cases h
  | ok pr =>
    rw [hp] at h
    cases hcf : w.createFails
    · rw [hcf] at h
      simp only [Bool.false_eq_true, if_false, Except.ok.injEq, Prod.mk.injEq] at h
      exact ⟨rfl, h.1.symm, h.2.symm⟩
    · rw [hcf] at h; simp at h

theorem createContainer_fails {w : World} (cfg : ContainerConfig)
    (hcf : w.createFails = true) : ∃ e, createContainer w cfg = .error e := by
  unfold createContainer
  cases hp : parsePortMappings cfg.ports with
  | error e => exact ⟨_, rfl⟩
  | ok pr => rw [hcf]; exact ⟨_, rfl⟩

theorem startContainer_ok_eq {w : World} {id : String} {w4 : World}
    (h : startContainer w id = .ok w4) :
    w.startFails = false ∧
      w4 = {w with containers :=
        w.containers.map (fun c => if c.id = id then {c with running := true} else c)} := by
  unfold startContainer at h
  cases hsf : w.startFails
  · rw [hsf] at h
    simp only [Bool.false_eq_true, if_false] at h
    cases hf : w.containers.find? (fun c => c.id = id) with
    | none => rw [hf] at h; cases h
    | some c =>
      rw [hf] at h
      simp only [Except.ok.injEq] at h
      exact ⟨rfl, h.symm⟩
  · rw [hsf] at h; simp at h

/-- Looking up the id of a freshly appended container finds exactly it,
when no earlier container carries that id. -/
theorem find?_id_after_create (l : List ContainerRec) (nid : String) (nc : ContainerRec)
    (hnc : nc.id = nid) (hfresh : ∀ d ∈ l, d.id ≠ nid) :
    (l ++ [nc]).find? (fun d => d.id = nid) = some nc := by
  rw [List.find?_append]
  have h1 : l.find? (fun d => decide (d.id = nid)) = none := by
    rw [List.find?_eq_none]
    intro x hx
    simpa using hfresh x hx
  rw [h1]
  simp [hnc]

/-- Evaluation of the tail of `runSession` from the container lookup on,
in the recreate scenario: the found container is bound to a different
image than the computed one, every runtime call succeeds, and the
daemon's next id is fresh. The old container is removed (forced), a new
one is created, started and attached, and its id is returned. -/
theorem sessionFindStage_recreate_eval
    (imageRef containerName : String) (ports : List String) (env : List (String × String))
    (command : List String) (workDir : String) (tr : List DCall) (w : World)
    (c : ContainerRec)
    (hlist : w.listFails = false)
    (hfind : w.containers.find? (fun d => ("/" ++ containerName) ∈ d.names) = some c)
    (hid : w.containers.find? (fun d => d.id = c.id) = some c)
    (hcid : c.id ≠ "")
    (hold : c.image ≠ imageRef)
    (hports : parsePortMappings ports = .ok pr)
    (hcreate : w.createFails = false)
    (hstart : w.startFails = false)
    (hattach : w.attachFails = false)
    (hfresh : ∀ d ∈ w.containers, d.id ≠ w.nextId) :
    sessionFindStage imageRef containerName ports env command workDir w tr =
      (.ok w.nextId,
       tr ++ [DCall.findContainer containerName, DCall.getImage c.id,
              DCall.remove c.id true, DCall.create containerName imageRef,
              DCall.isRunning w.nextId, DCall.start w.nextId, DCall.attach w.nextId]) := by
  have hw3find : ((w.containers.filter (fun d => !decide (d.id = c.id))) ++
      [({id := w.nextId, names := ["/" ++ containerName], image := imageRef,
         running := false} : ContainerRec)]).find?
        (fun d => d.id = w.nextId) =
      some ({id := w.nextId, names := ["/" ++ containerName], image := imageRef,
             running := false} : ContainerRec) :=
    find?_id_after_create _ _ _ rfl
      (fun d hd => hfresh d (List.mem_of_mem_filter hd))
  unfold sessionFindStage sessionImageCheckStage sessionCreateStage sessionStartStage
    sessionAttachStage
  simp only [findContainer, hlist, Bool.false_eq_true, if_false, hfind,
    getContainerImage, hid, hold]
  simp [hcid, hold, removeContainer, hid, createContainer, hports,
    hcreate, isContainerRunning, hw3find, startContainer, hstart, hattach]

/-! ## Claim C4 and C5: recreation on a changed image -/

/-- C4: with an existing container bound to an image other than the one
computed from the current configuration, `runSession` removes the old
container (forced) and creates a new one bound to the computed image,
returning the new container id assigned by the daemon. The image step is
covered in both forms (image already present, or built successfully);
all runtime calls succeed and the daemon's next id is fresh. -/
theorem reconcile_changed_image_recreates
    (imageRef containerName : String) (ports : List String) (env : List (String × String))
    (command : List String) (workDir : String) (w : World) (c : ContainerRec)
    (pr : List String × List (String × List PortBinding))
    (himgstep : w.images.contains imageRef = true ∨ streamBuildOutput w.buildMsgs = .ok ())
    (hlist : w.listFails = false)
    (hfind : w.containers.find? (fun d => ("/" ++ containerName) ∈ d.names) = some c)
    (hid : w.containers.find? (fun d => d.id = c.id) = some c)
    (hcid : c.id ≠ "")
    (hold : c.image ≠ imageRef)
    (hports : parsePortMappings ports = .ok pr)
    (hcreate : w.createFails = false)
    (hstart : w.startFails = false)
    (hattach : w.attachFails = false)
    (hfresh : ∀ d ∈ w.containers, d.id ≠ w.nextId) :
    (runSession imageRef containerName ports env command workDir w).1 = .ok w.nextId ∧
    ∃ t1 t2, (runSession imageRef containerName ports env command workDir w).2 =
      t1 ++ [DCall.remove c.id true] ++ [DCall.create containerName imageRef] ++ t2 := by
  rcases himgstep with himg | hbuild
  · have heval := sessionFindStage_recreate_eval imageRef containerName ports env command
      workDir [DCall.imageExists imageRef] w c hlist hfind hid hcid hold hports hcreate
      hstart hattach hfresh
    simp only [runSession]
    rw [if_pos (show imageExists w imageRef = true from himg)]
    rw [heval]
    exact ⟨rfl, [DCall.imageExists imageRef, DCall.findContainer containerName,
      DCall.getImage c.id],
      [DCall.isRunning w.nextId, DCall.start w.nextId, DCall.attach w.nextId], by simp⟩
  · cases him : imageExists w imageRef
    · have hb : buildImage w imageRef = .ok {w with images := w.images ++ [imageRef]} := by
        unfold buildImage
        rw [hbuild]
      have heval := sessionFindStage_recreate_eval imageRef containerName ports env command
        workDir [DCall.imageExists imageRef, DCall.build imageRef]
        {w with images := w.images ++ [imageRef]} c hlist hfind hid hcid hold hports hcreate
        hstart hattach hfresh
      simp only [runSession]
      rw [if_neg (by simp [him]), hb]
      dsimp only
      rw [show ([DCall.imageExists imageRef] ++ [DCall.build imageRef]) =
        [DCall.imageExists imageRef, DCall.build imageRef] from rfl]
      rw [heval]
      exact ⟨by simp, [DCall.imageExists imageRef, DCall.build imageRef,
        DCall.findContainer containerName, DCall.getImage c.id],
        [DCall.isRunning w.nextId, DCall.start w.nextId, DCall.attach w.nextId], by simp⟩
    · have heval := sessionFindStage_recreate_eval imageRef containerName ports env command
        workDir [DCall.imageExists imageRef] w c hlist hfind hid hcid hold hports hcreate
        hstart hattach hfresh
      simp only [runSession]
      rw [if_pos him]
      rw [heval]
      exact ⟨rfl, [DCall.imageExists imageRef, DCall.findContainer containerName,
        DCall.getImage c.id],
        [DCall.isRunning w.nextId, DCall.start w.nextId, DCall.attach w.nextId], by simp⟩

theorem reconcile_changed_image_recreates_witness :
    (runSession "devbox-p:bbbb" "devbox-p" [] [] [] "" 
      ⟨["devbox-p:bbbb"], [⟨"cid1", ["/devbox-p"], "devbox-p:aaaa", true⟩],
       false, [], false, false, false, "cid2"⟩).1 = .ok "cid2" ∧
    ∃ t1 t2, (runSession "devbox-p:bbbb" "devbox-p" [] [] [] ""
      ⟨["devbox-p:bbbb"], [⟨"cid1", ["/devbox-p"], "devbox-p:aaaa", true⟩],
       false, [], false, false, false, "cid2"⟩).2 =
      t1 ++ [DCall.remove "cid1" true] ++ [DCall.create "devbox-p" "devbox-p:bbbb"] ++ t2 :=
  reconcile_changed_image_recreates "devbox-p:bbbb" "devbox-p" [] [] [] ""
    ⟨["devbox-p:bbbb"], [⟨"cid1", ["/devbox-p"], "devbox-p:aaaa", true⟩],
     false, [], false, false, false, "cid2"⟩
    ⟨"cid1", ["/devbox-p"], "devbox-p:aaaa", true⟩ ([], [])
    (Or.inl (by decide)) rfl (by decide) (by decide) (by decide) (by decide) rfl rfl rfl rfl
    (by decide)

/-- C5 counterexample: at a concrete world whose found container is
running and bound to a stale image, the reconciliation issues the forced
remove but no stop call at all — the claimed "stopped before being
removed" does not happen. -/
theorem recreate_running_issues_no_stop :
    (∀ i, DCall.stop i ∉ (runSession "devbox-p:bbbb" "devbox-p" [] [] [] ""
      ⟨["devbox-p:bbbb"], [⟨"cid1", ["/devbox-p"], "devbox-p:aaaa", true⟩],
       false, [], false, false, false, "cid2"⟩).2) ∧
    DCall.remove "cid1" true ∈ (runSession "devbox-p:bbbb" "devbox-p" [] [] [] ""
      ⟨["devbox-p:bbbb"], [⟨"cid1", ["/devbox-p"], "devbox-p:aaaa", true⟩],
       false, [], false, false, false, "cid2"⟩).2 := by
  have h : runSession "devbox-p:bbbb" "devbox-p" [] [] [] ""
      ⟨["devbox-p:bbbb"], [⟨"cid1", ["/devbox-p"], "devbox-p:aaaa", true⟩],
       false, [], false, false, false, "cid2"⟩ =
      (.ok "cid2",
       [DCall.imageExists "devbox-p:bbbb", DCall.findContainer "devbox-p",
        DCall.getImage "cid1", DCall.remove "cid1" true,
        DCall.create "devbox-p" "devbox-p:bbbb", DCall.isRunning "cid2",
        DCall.start "cid2", DCall.attach "cid2"]) := rfl
  rw [h]
  constructor
  · intro i
    simp
  · simp

/-- C5 (amended): when the found container's bound image differs from
the computed one, the container — running or not — is removed directly
with force (the forced remove kills a running container; no separate
stop call is issued anywhere in the invocation), and only then is the
project treated as container-less: a create for the computed image
follows the remove. -/
theorem recreate_removes_forced_without_stop
    (imageRef containerName : String) (ports : List String) (env : List (String × String))
    (command : List String) (workDir : String) (w : World) (c : ContainerRec)
    (pr : List String × List (String × List PortBinding))
    (hrun : c.running = true)
    (himgstep : w.images.contains imageRef = true ∨ streamBuildOutput w.buildMsgs = .ok ())
    (hlist : w.listFails = false)
    (hfind : w.containers.find? (fun d => ("/" ++ containerName) ∈ d.names) = some c)
    (hid : w.containers.find? (fun d => d.id = c.id) = some c)
    (hcid : c.id ≠ "")
    (hold : c.image ≠ imageRef)
    (hports : parsePortMappings ports = .ok pr)
    (hcreate : w.createFails = false)
    (hstart : w.startFails = false)
    (hattach : w.attachFails = false)
    (hfresh : ∀ d ∈ w.containers, d.id ≠ w.nextId) :
    (∀ i, DCall.stop i ∉ (runSession imageRef containerName ports env command workDir w).2) ∧
    ∃ t1 t2, (runSession imageRef containerName ports env command workDir w).2 =
      t1 ++ [DCall.remove c.id true] ++ t2 ∧
      DCall.create containerName imageRef ∈ t2 := by
  rcases himgstep with himg | hbuild
  · have heval := sessionFindStage_recreate_eval imageRef containerName ports env command
      workDir [DCall.imageExists imageRef] w c hlist hfind hid hcid hold hports hcreate
      hstart hattach hfresh
    simp only [runSession]
    rw [if_pos (show imageExists w imageRef = true from himg), heval]
    refine ⟨fun i => by simp, [DCall.imageExists imageRef, DCall.findContainer containerName,
      DCall.getImage c.id],
      [DCall.create containerName imageRef, DCall.isRunning w.nextId, DCall.start w.nextId,
       DCall.attach w.nextId], by simp, by simp⟩
  · cases him : imageExists w imageRef
    · have hb : buildImage w imageRef = .ok {w with images := w.images ++ [imageRef]} := by
        unfold buildImage
        rw [hbuild]
      have heval := sessionFindStage_recreate_eval imageRef containerName ports env command
        workDir [DCall.imageExists imageRef, DCall.build imageRef]
        {w with images := w.images ++ [imageRef]} c hlist hfind hid hcid hold hports hcreate
        hstart hattach hfresh
      simp only [runSession]
      rw [if_neg (by simp [him]), hb]
      dsimp only
      rw [show ([DCall.imageExists imageRef] ++ [DCall.build imageRef]) =
        [DCall.imageExists imageRef, DCall.build imageRef] from rfl]
      rw [heval]
      refine ⟨fun i => by simp, [DCall.imageExists imageRef, DCall.build imageRef,
        DCall.findContainer containerName, DCall.getImage c.id],
        [DCall.create containerName imageRef, DCall.isRunning w.nextId, DCall.start w.nextId,
         DCall.attach w.nextId], by simp, by simp⟩
    · have heval := sessionFindStage_recreate_eval imageRef containerName ports env command
        workDir [DCall.imageExists imageRef] w c hlist hfind hid hcid hold hports hcreate
        hstart hattach hfresh
      simp only [runSession]
      rw [if_pos him]
      rw [heval]
      refine ⟨fun i => by simp, [DCall.imageExists imageRef, DCall.findContainer containerName,
        DCall.getImage c.id],
        [DCall.create containerName imageRef, DCall.isRunning w.nextId, DCall.start w.nextId,
         DCall.attach w.nextId], by simp, by simp⟩

theorem recreate_removes_forced_without_stop_witness :
    (∀ i, DCall.stop i ∉ (runSession "devbox-p:bbbb" "devbox-p" [] [] [] ""
      ⟨["devbox-p:bbbb"], [⟨"cid1", ["/devbox-p"], "devbox-p:aaaa", true⟩],
       false, [], false, false, false, "cid2"⟩).2) ∧
    ∃ t1 t2, (runSession "devbox-p:bbbb" "devbox-p" [] [] [] ""
      ⟨["devbox-p:bbbb"], [⟨"cid1", ["/devbox-p"], "devbox-p:aaaa", true⟩],
       false, [], false, false, false, "cid2"⟩).2 =
      t1 ++ [DCall.remove "cid1" true] ++ t2 ∧
      DCall.create "devbox-p" "devbox-p:bbbb" ∈ t2 :=
  recreate_removes_forced_without_stop "devbox-p:bbbb" "devbox-p" [] [] [] ""
    ⟨["devbox-p:bbbb"], [⟨"cid1", ["/devbox-p"], "devbox-p:aaaa", true⟩],
     false, [], false, false, false, "cid2"⟩
    ⟨"cid1", ["/devbox-p"], "devbox-p:aaaa", true⟩ ([], [])
    rfl (Or.inl (by decide)) rfl (by decide) (by decide) (by decide) (by decide) rfl rfl rfl
    rfl (by decide)

/-! ## Claim C2: idempotence of reconciliation -/

/-- C2: a second `runSession` with byte-identical configuration — so the
computed image already exists, the container named for the project is
found, is bound to that image, and is running — issues no mutating
runtime call: no build, no create, no remove, no start (and no stop).
The id-lookup hypothesis states that inspecting the found id yields the
found container, i.e. ids are unambiguous, which the daemon guarantees. -/
theorem reconcile_unchanged_no_mutation
    (imageRef containerName : String) (ports : List String) (env : List (String × String))
    (command : List String) (workDir : String) (w : World) (c : ContainerRec)
    (himg : w.images.contains imageRef = true)
    (hlist : w.listFails = false)
    (hfind : w.containers.find? (fun d => ("/" ++ containerName) ∈ d.names) = some c)
    (hid : w.containers.find? (fun d => d.id = c.id) = some c)
    (hcid : c.id ≠ "")
    (hbound : c.image = imageRef)
    (hrun : c.running = true) :
    ((runSession imageRef containerName ports env command workDir w).2.all
      (fun k => !k.isMutating)) = true := by
  unfold runSession sessionFindStage sessionImageCheckStage sessionCreateStage
    sessionStartStage sessionAttachStage
  simp only [imageExists, himg, if_true, findContainer, hlist, Bool.false_eq_true,
    if_false, hfind]
  simp only [getContainerImage, hid, hbound, isContainerRunning, hrun]
  simp [hcid, hid, hrun, isContainerRunning, DCall.isMutating]
  cases w.attachFails <;> simp [DCall.isMutating]

theorem reconcile_unchanged_no_mutation_witness :
    ((runSession "devbox-p:aaaa" "devbox-p" [] [] [] ""
      ⟨["devbox-p:aaaa"], [⟨"cid1", ["/devbox-p"], "devbox-p:aaaa", true⟩],
       false, [], false, false, false, "cid2"⟩).2.all (fun k => !k.isMutating)) = true :=
  reconcile_unchanged_no_mutation "devbox-p:aaaa" "devbox-p" [] [] [] ""
    ⟨["devbox-p:aaaa"], [⟨"cid1", ["/devbox-p"], "devbox-p:aaaa", true⟩],
     false, [], false, false, false, "cid2"⟩
    ⟨"cid1", ["/devbox-p"], "devbox-p:aaaa", true⟩
    (by decide) rfl (by decide) (by decide) (by decide) rfl rfl

/-! ## Propagation lemmas for Claim C9

Which calls each later stage can add to the trace, and that a failing
create or start forces an error result: proved stage by stage, from the
attachment back to the top of `runSession`. -/

theorem sessionAttachStage_trace (cid : String) (w : World) (tr : List DCall) :
    (sessionAttachStage cid w tr).2 = tr ++ [DCall.attach cid] := by
  cases hw : w.attachFails <;> simp [sessionAttachStage, hw]

theorem sessionStartStage_mem (cid : String) (w : World) (tr : List DCall) :
    ∀ k ∈ (sessionStartStage cid w tr).2,
      k ∈ tr ∨ k = DCall.isRunning cid ∨ k = DCall.start cid ∨ k = DCall.attach cid := by
  intro k hk
  cases hr : isContainerRunning w cid with
  | error e =>
    simp [sessionStartStage, hr] at hk
    tauto
  | ok running =>
    cases running with
    | false =>
      cases hs : startContainer w cid with
      | error e =>
        simp [sessionStartStage, hr, hs] at hk
        tauto
      | ok w4 =>
        simp [sessionStartStage, hr, hs, sessionAttachStage_trace] at hk
        tauto
    | true =>
      simp [sessionStartStage, hr, sessionAttachStage_trace] at hk
      tauto

theorem sessionStartStage_start_fail (cid : String) (w : World) (tr : List DCall)
    (hsf : w.startFails = true) (i : String)
    (hk : DCall.start i ∈ (sessionStartStage cid w tr).2) :
    DCall.start i ∈ tr ∨ ∀ id, (sessionStartStage cid w tr).1 ≠ .ok id := by
  cases hr : isContainerRunning w cid with
  | error e => exact Or.inr (by intro id; simp [sessionStartStage, hr])
  | ok running =>
    cases running with
    | false =>
      have hs : startContainer w cid = .error "starting container" := by
        simp [startContainer, hsf]
      exact Or.inr (by intro id; simp [sessionStartStage, hr, hs])
    | true =>
      left
      simpa [sessionStartStage, hr, sessionAttachStage_trace] using hk

theorem sessionCreateStage_create_fail (imageRef containerName : String)
    (ports : List String) (env : List (String × String)) (command : List String)
    (workDir : String) (cid1 : String) (w2 : World) (tr : List DCall)
    (hcf : w2.createFails = true) (n r : String)
    (hk : DCall.create n r ∈
      (sessionCreateStage imageRef containerName ports env command workDir cid1 w2 tr).2) :
    DCall.create n r ∈ tr ∨
      ∀ id, (sessionCreateStage imageRef containerName ports env command workDir
        cid1 w2 tr).1 ≠ .ok id := by
  by_cases hc : cid1 = ""
  · obtain ⟨e, he⟩ := createContainer_fails
      {imageRef := imageRef, containerName := containerName, workDir := workDir,
       ports := ports, env := env, command := command} hcf
    exact Or.inr (by intro id; simp [sessionCreateStage, hc, he])
  · have hk2 : DCall.create n r ∈ (sessionStartStage cid1 w2 tr).2 := by
      simpa [sessionCreateStage, hc] using hk
    rcases sessionStartStage_mem _ _ _ _ hk2 with h | h | h | h
    · exact Or.inl h
    · simp at h
    · simp at h
    · simp at h

theorem sessionCreateStage_start_fail (imageRef containerName : String)
    (ports : List String) (env : List (String × String)) (command : List String)
    (workDir : String) (cid1 : String) (w2 : World) (tr : List DCall)
    (hsf : w2.startFails = true) (i : String)
    (hk : DCall.start i ∈
      (sessionCreateStage imageRef containerName ports env command workDir cid1 w2 tr).2) :
    DCall.start i ∈ tr ∨
      ∀ id, (sessionCreateStage imageRef containerName ports env command workDir
        cid1 w2 tr).1 ≠ .ok id := by
  by_cases hc : cid1 = ""
  · cases hcr : createContainer w2
      {imageRef := imageRef, containerName := containerName, workDir := workDir,
       ports := ports, env := env, command := command} with
    | error e => exact Or.inr (by intro id; simp [sessionCreateStage, hc, hcr])
    | ok p =>
      obtain ⟨nid, w3⟩ := p
      obtain ⟨-, -, hw3⟩ := createContainer_ok_eq hcr
      have hsf3 : w3.startFails = true := by rw [hw3]; exact hsf
      have hstage : sessionCreateStage imageRef containerName ports env command workDir
          cid1 w2 tr = sessionStartStage nid w3 (tr ++ [DCall.create containerName imageRef]) := by
        simp [sessionCreateStage, hc, hcr]
      rw [hstage] at hk ⊢
      rcases sessionStartStage_start_fail nid w3 _ hsf3 i hk with h | h
      · left
        simpa using h
      · exact Or.inr h
  · have hstage : sessionCreateStage imageRef containerName ports env command workDir
        cid1 w2 tr = sessionStartStage cid1 w2 tr := by
      simp [sessionCreateStage, hc]
    rw [hstage] at hk ⊢
    exact sessionStartStage_start_fail cid1 w2 tr hsf i hk

theorem sessionImageCheckStage_create_fail (imageRef containerName : String)
    (ports : List String) (env : List (String × String)) (command : List String)
    (workDir : String) (cid0 : String) (w1 : World) (tr : List DCall)
    (hcf : w1.createFails = true) (n r : String)
    (hk : DCall.create n r ∈
      (sessionImageCheckStage imageRef containerName ports env command workDir
        cid0 w1 tr).2) :
    DCall.create n r ∈ tr ∨
      ∀ id, (sessionImageCheckStage imageRef containerName ports env command workDir
        cid0 w1 tr).1 ≠ .ok id := by
  by_cases hc : cid0 ≠ ""
  · cases hg : getContainerImage w1 cid0 with
    | error e => exact Or.inr (by intro id; simp [sessionImageCheckStage, hc, hg])
    | ok currentImage =>
      by_cases hcur : currentImage ≠ imageRef
      · cases hrm : removeContainer w1 cid0 true with
        | error e => exact Or.inr (by intro id; simp [sessionImageCheckStage, hc, hg, hcur, hrm])
        | ok w2 =>
          have hw2 := removeContainer_ok_eq hrm
          have hcf2 : w2.createFails = true := by rw [hw2]; exact hcf
          have hstage : sessionImageCheckStage imageRef containerName ports env command
              workDir cid0 w1 tr = sessionCreateStage imageRef containerName ports env
              command workDir "" w2
              (tr ++ [DCall.getImage cid0, DCall.remove cid0 true]) := by
            simp [sessionImageCheckStage, hc, hg, hcur, hrm]
          rw [hstage] at hk ⊢
          rcases sessionCreateStage_create_fail _ _ _ _ _ _ _ _ _ hcf2 n r hk with h | h
          · left
            simpa using h
          · exact Or.inr h
      · have hstage : sessionImageCheckStage imageRef containerName ports env command
            workDir cid0 w1 tr = sessionCreateStage imageRef containerName ports env
            command workDir cid0 w1 (tr ++ [DCall.getImage cid0]) := by
          simp [sessionImageCheckStage, hc, hg, hcur]
        rw [hstage] at hk ⊢
        rcases sessionCreateStage_create_fail _ _ _ _ _ _ _ _ _ hcf n r hk with h | h
        · left
          simpa using h
        · exact Or.inr h
  · have hstage : sessionImageCheckStage imageRef containerName ports env command workDir
        cid0 w1 tr = sessionCreateStage imageRef containerName ports env command workDir
        cid0 w1 tr := by
      simp [sessionImageCheckStage, hc]
    rw [hstage] at hk ⊢
    exact sessionCreateStage_create_fail _ _ _ _ _ _ _ _ _ hcf n r hk

theorem sessionImageCheckStage_start_fail (imageRef containerName : String)
    (ports : List String) (env : List (String × String)) (command : List String)
    (workDir : String) (cid0 : String) (w1 : World) (tr : List DCall)
    (hsf : w1.startFails = true) (i : String)
    (hk : DCall.start i ∈
      (sessionImageCheckStage imageRef containerName ports env command workDir
        cid0 w1 tr).2) :
    DCall.start i ∈ tr ∨
      ∀ id, (sessionImageCheckStage imageRef containerName ports env command workDir
        cid0 w1 tr).1 ≠ .ok id := by
  by_cases hc : cid0 ≠ ""
  · cases hg : getContainerImage w1 cid0 with
    | error e => exact Or.inr (by intro id; simp [sessionImageCheckStage, hc, hg])
    | ok currentImage =>
      by_cases hcur : currentImage ≠ imageRef
      · cases hrm : removeContainer w1 cid0 true with
        | error e => exact Or.inr (by intro id; simp [sessionImageCheckStage, hc, hg, hcur, hrm])
        | ok w2 =>
          have hw2 := removeContainer_ok_eq hrm
          have hsf2 : w2.startFails = true := by rw [hw2]; exact hsf
          have hstage : sessionImageCheckStage imageRef containerName ports env command
              workDir cid0 w1 tr = sessionCreateStage imageRef containerName ports env
              command workDir "" w2
              (tr ++ [DCall.getImage cid0, DCall.remove cid0 true]) := by
            simp [sessionImageCheckStage, hc, hg, hcur, hrm]
          rw [hstage] at hk ⊢
          rcases sessionCreateStage_start_fail _ _ _ _ _ _ _ _ _ hsf2 i hk with h | h
          · left
            simpa using h
          · exact Or.inr h
      · have hstage : sessionImageCheckStage imageRef containerName ports env command
            workDir cid0 w1 tr = sessionCreateStage imageRef containerName ports env
            command workDir cid0 w1 (tr ++ [DCall.getImage cid0]) := by
          simp [sessionImageCheckStage, hc, hg, hcur]
        rw [hstage] at hk ⊢
        rcases sessionCreateStage_start_fail _ _ _ _ _ _ _ _ _ hsf i hk with h | h
        · left
          simpa using h
        · exact Or.inr h
  · have hstage : sessionImageCheckStage imageRef containerName ports env command workDir
        cid0 w1 tr = sessionCreateStage imageRef containerName ports env command workDir
        cid0 w1 tr := by
      simp [sessionImageCheckStage, hc]
    rw [hstage] at hk ⊢
    exact sessionCreateStage_start_fail _ _ _ _ _ _ _ _ _ hsf i hk

theorem sessionFindStage_create_fail (imageRef containerName : String)
    (ports : List String) (env : List (String × String)) (command : List String)
    (workDir : String) (w1 : World) (tr : List DCall)
    (hcf : w1.createFails = true) (n r : String)
    (hk : DCall.create n r ∈
      (sessionFindStage imageRef containerName ports env command workDir w1 tr).2) :
    DCall.create n r ∈ tr ∨
      ∀ id, (sessionFindStage imageRef containerName ports env command workDir
        w1 tr).1 ≠ .ok id := by
  cases hf : findContainer w1 containerName with
  | error e => exact Or.inr (by intro id; simp [sessionFindStage, hf])
  | ok cid0 =>
    have hstage : sessionFindStage imageRef containerName ports env command workDir w1 tr =
        sessionImageCheckStage imageRef containerName ports env command workDir cid0 w1
          (tr ++ [DCall.findContainer containerName]) := by
      simp [sessionFindStage, hf]
    rw [hstage] at hk ⊢
    rcases sessionImageCheckStage_create_fail _ _ _ _ _ _ _ _ _ hcf n r hk with h | h
    · left
      simpa using h
    · exact Or.inr h

theorem sessionFindStage_start_fail (imageRef containerName : String)
    (ports : List String) (env : List (String × String)) (command : List String)
    (workDir : String) (w1 : World) (tr : List DCall)
    (hsf : w1.startFails = true) (i : String)
    (hk : DCall.start i ∈
      (sessionFindStage imageRef containerName ports env command workDir w1 tr).2) :
    DCall.start i ∈ tr ∨
      ∀ id, (sessionFindStage imageRef containerName ports env command workDir
        w1 tr).1 ≠ .ok id := by
  cases hf : findContainer w1 containerName with
  | error e => exact Or.inr (by intro id; simp [sessionFindStage, hf])
  | ok cid0 =>
    have hstage : sessionFindStage imageRef containerName ports env command workDir w1 tr =
        sessionImageCheckStage imageRef containerName ports env command workDir cid0 w1
          (tr ++ [DCall.findContainer containerName]) := by
      simp [sessionFindStage, hf]
    rw [hstage] at hk ⊢
    rcases sessionImageCheckStage_start_fail _ _ _ _ _ _ _ _ _ hsf i hk with h | h
    · left
      simpa using h
    · exact Or.inr h

/-! ## Claim C9: a failed build aborts; failed create or start yields no id -/

/-- C9: when the image is missing and the build progress stream reports
an error, `runSession` aborts with the build failure and its trace is
exactly the image check and the failed build — no find, create, start or
attach call follows; moreover, across all runs, a failing create call
never lets the invocation return a container id, and neither does a
failing start call. -/
theorem build_failure_aborts_and_failures_return_no_id :
    (∀ (imageRef containerName : String) (ports : List String)
       (env : List (String × String)) (command : List String) (workDir : String)
       (w : World) (e : String),
       imageExists w imageRef = false →
       streamBuildOutput w.buildMsgs = .error e →
       runSession imageRef containerName ports env command workDir w =
         (.error ("building image: " ++ ("streaming build output: " ++ e)),
          [DCall.imageExists imageRef, DCall.build imageRef])) ∧
    (∀ (imageRef containerName : String) (ports : List String)
       (env : List (String × String)) (command : List String) (workDir : String)
       (w : World) (n r : String),
       w.createFails = true →
       DCall.create n r ∈ (runSession imageRef containerName ports env command workDir w).2 →
       ∀ id, (runSession imageRef containerName ports env command workDir w).1 ≠ .ok id) ∧
    (∀ (imageRef containerName : String) (ports : List String)
       (env : List (String × String)) (command : List String) (workDir : String)
       (w : World) (i : String),
       w.startFails = true →
       DCall.start i ∈ (runSession imageRef containerName ports env command workDir w).2 →
       ∀ id, (runSession imageRef containerName ports env command workDir w).1 ≠ .ok id) := by
  refine ⟨?_, ?_, ?_⟩
  · intro imageRef containerName ports env command workDir w e himg hstream
    have hb : buildImage w imageRef = .error ("streaming build output: " ++ e) := by
      simp [buildImage, hstream]
    simp [runSession, himg, hb]
  · intro imageRef containerName ports env command workDir w n r hcf hk
    cases him : imageExists w imageRef with
    | true =>
      have hstage : runSession imageRef containerName ports env command workDir w =
          sessionFindStage imageRef containerName ports env command workDir w
            [DCall.imageExists imageRef] := by
        simp [runSession, him]
      rw [hstage] at hk ⊢
      rcases sessionFindStage_create_fail _ _ _ _ _ _ _ _ hcf n r hk with h | h
      · simp at h
      · exact h
    | false =>
      cases hb : buildImage w imageRef with
      | error e =>
        have hstage : runSession imageRef containerName ports env command workDir w =
            (.error ("building image: " ++ e),
             [DCall.imageExists imageRef, DCall.build imageRef]) := by
          simp [runSession, him, hb]
        rw [hstage]
        intro id
        simp
      | ok w1 =>
        have hw1 := buildImage_ok_eq hb
        have hcf1 : w1.createFails = true := by rw [hw1]; exact hcf
        have hstage : runSession imageRef containerName ports env command workDir w =
            sessionFindStage imageRef containerName ports env command workDir w1
              [DCall.imageExists imageRef, DCall.build imageRef] := by
          simp [runSession, him, hb]
        rw [hstage] at hk ⊢
        rcases sessionFindStage_create_fail _ _ _ _ _ _ _ _ hcf1 n r hk with h | h
        · simp at h
        · exact h
  · intro imageRef containerName ports env command workDir w i hsf hk
    cases him : imageExists w imageRef with
    | true =>
      have hstage : runSession imageRef containerName ports env command workDir w =
          sessionFindStage imageRef containerName ports env command workDir w
            [DCall.imageExists imageRef] := by
        simp [runSession, him]
      rw [hstage] at hk ⊢
      rcases sessionFindStage_start_fail _ _ _ _ _ _ _ _ hsf i hk with h | h
      · simp at h
      · exact h
    | false =>
      cases hb : buildImage w imageRef with
      | error e =>
        have hstage : runSession imageRef containerName ports env command workDir w =
            (.error ("building image: " ++ e),
             [DCall.imageExists imageRef, DCall.build imageRef]) := by
          simp [runSession, him, hb]
        rw [hstage]
        intro id
        simp
      | ok w1 =>
        have hw1 := buildImage_ok_eq hb
        have hsf1 : w1.startFails = true := by rw [hw1]; exact hsf
        have hstage : runSession imageRef containerName ports env command workDir w =
            sessionFindStage imageRef containerName ports env command workDir w1
              [DCall.imageExists imageRef, DCall.build imageRef] := by
          simp [runSession, him, hb]
        rw [hstage] at hk ⊢
        rcases sessionFindStage_start_fail _ _ _ _ _ _ _ _ hsf1 i hk with h | h
        · simp at h
        · exact h
